import Mathlib

/-!
Verification of the maintner API service (maintapi/api.go) and the dashboard
builder eligibility engine against their natural-language specification.

Shallow embedding conventions:
* Go strings are Lean `String`; byte-wise operations work on the `.data`
  character list so every definition is executable and kernel-reducible.
* Go `int`, `int32` and `time.Time`/`time.Duration` are modelled as `Int`
  (respectively `Nat` for version numbers, which are parsed from decimal
  digits and never overflow in practice).
* Fallible Go functions returning `(T, error)` become `Except String T`.
* The process-wide mutable cache `tryCache` becomes an explicit `TryCache`
  value threaded through `goFindTryWork`, which returns the new cache
  state together with a flag recording whether the remote Gerrit query
  was issued on that call.
-/

/-! ## String helpers (byte-wise, as Go strings.HasPrefix / TrimPrefix) -/

/-- Character-list version of Go strings.HasPrefix: `p` is the pattern. -/
def hasLeadChars : List Char → List Char → Bool
  | [], _ => true
  | _ :: _, [] => false
  | a :: as, b :: bs => a == b && hasLeadChars as bs

/-- Go strings.HasPrefix on strings. -/
def strHasLead (s p : String) : Bool := hasLeadChars p.data s.data

/-- Drop the first `n` characters of a string. -/
def strDropChars (s : String) (n : Nat) : String := ⟨s.data.drop n⟩

/-- Go strings.TrimPrefix: remove the leading pattern `p` when present. -/
def trimLead (s p : String) : String :=
  if strHasLead s p then strDropChars s p.data.length else s

/-- Byte-wise lexicographic less-or-equal, matching the Go string `<` order
used by the final `sort.Slice` in GoFindTryWork (non-strict closure). -/
def charLe : List Char → List Char → Bool
  | [], _ => true
  | _ :: _, [] => false
  | a :: as, b :: bs =>
    if a.toNat < b.toNat then true
    else if b.toNat < a.toNat then false
    else charLe as bs

/-- Lexicographic less-or-equal on strings. -/
def strLe (a b : String) : Bool := charLe a.data b.data

/-! ## Version parsing

The package golang.org/x/build/maintner/maintnerd/maintapi/version is not
part of the sources; its two functions are modelled from the spec. -/

/-- Parse a run of decimal digits into a number; empty or non-digit input
is rejected. -/
def digitsVal : List Char → Nat → Option Nat
  | [], acc => some acc
  | c :: cs, acc =>
    if c.isDigit then digitsVal cs (acc * 10 + (c.toNat - 48)) else none

/-- Parse a non-empty all-digits character list as a natural number. -/
def parseDigits : List Char → Option Nat
  | [] => none
  | c :: cs => digitsVal (c :: cs) 0

/-- Split a character list on the dot character. -/
def splitDots : List Char → List (List Char)
  | [] => [[]]
  | c :: cs =>
    let r := splitDots cs
    if c = '.' then [] :: r
    else
      match r with
      | [] => [[c]]
      | h :: t => (c :: h) :: t

/-- Modelled from the spec: `version.ParseTag` (package maintapi/version is
not under src/). Accepts `goN`, `goN.M`, `goN.M.P` with numeric components;
missing minor/patch default to 0; any suffix (beta, rc, trailing characters)
makes the whole name invalid. -/
def parseTagVersion (tagName : String) : Option (Nat × Nat × Nat) :=
  if strHasLead tagName "go" then
    match splitDots (tagName.data.drop 2) with
    | [a] => (parseDigits a).map fun x => (x, 0, 0)
    | [a, b] =>
      match parseDigits a, parseDigits b with
      | some x, some y => some (x, y, 0)
      | _, _ => none
    | [a, b, c] =>
      match parseDigits a, parseDigits b, parseDigits c with
      | some x, some y, some z => some (x, y, z)
      | _, _, _ => none
    | _ => none
  else none

/-- Modelled from the spec: `version.ParseReleaseBranch` (package
maintapi/version is not under src/). Accepts `release-branch.goN` or
`release-branch.goN.M`; there is no patch component; every other shape is
rejected. -/
def parseReleaseBranchVersion (branchName : String) : Option (Nat × Nat) :=
  if strHasLead branchName "release-branch.go" then
    match splitDots (branchName.data.drop 17) with
    | [a] => (parseDigits a).map fun x => (x, 0)
    | [a, b] =>
      match parseDigits a, parseDigits b with
      | some x, some y => some (x, y)
      | _, _ => none
    | _ => none
  else none

/-! ## supportedGoReleases (api.go lines 293-389) -/

/-- GoRelease mirrors apipb.GoRelease as filled in by supportedGoReleases. -/
structure GoRelease where
  major : Nat
  minor : Nat
  patch : Nat
  tagName : String
  tagCommit : String
  branchName : String
  branchCommit : String
deriving DecidableEq

/-- The per-(major, minor) tag data tracked by supportedGoReleases. -/
structure TagInfo where
  patch : Nat
  name : String
  commit : String
deriving DecidableEq

/-- The per-(major, minor) release-branch data tracked by supportedGoReleases. -/
structure BranchInfo where
  name : String
  commit : String
deriving DecidableEq

/-- Lookup in an association list keyed by a (major, minor) pair; models a
Go map read. -/
def mmLookup {α : Type} : List ((Nat × Nat) × α) → Nat × Nat → Option α
  | [], _ => none
  | (k, v) :: rest, key => if k = key then some v else mmLookup rest key

/-- Insert-or-replace in an association list keyed by a (major, minor) pair;
models a Go map write. -/
def mmInsert {α : Type} : List ((Nat × Nat) × α) → Nat × Nat → α → List ((Nat × Nat) × α)
  | [], key, v => [(key, v)]
  | (k, w) :: rest, key, v =>
    if k = key then (key, v) :: rest else (k, w) :: mmInsert rest key v

/-- The two maps built by the ref-iteration loop of supportedGoReleases. -/
structure RefMaps where
  tags : List ((Nat × Nat) × TagInfo)
  branches : List ((Nat × Nat) × BranchInfo)

/-- One step of the ForeachNonChangeRef callback in supportedGoReleases:
classify the ref as a Go tag or a release branch, parse it, and update the
corresponding map (tags keep only the highest patch per major-minor pair). -/
def collectRef (m : RefMaps) (ref : String) (hash : String) : RefMaps :=
  if strHasLead ref "refs/tags/go" then
    let tagName := strDropChars ref 10
    match parseTagVersion tagName with
    | none => m
    | some (major, minor, patch) =>
      match mmLookup m.tags (major, minor) with
      | some t =>
        if patch ≤ t.patch then m
        else { m with tags := mmInsert m.tags (major, minor) ⟨patch, tagName, hash⟩ }
      | none =>
        { m with tags := mmInsert m.tags (major, minor) ⟨patch, tagName, hash⟩ }
  else if strHasLead ref "refs/heads/release-branch.go" then
    let branchName := strDropChars ref 11
    match parseReleaseBranchVersion branchName with
    | none => m
    | some (major, minor) =>
      { m with branches := mmInsert m.branches (major, minor) ⟨branchName, hash⟩ }
  else m

/-- Fold collectRef over the listed non-change refs (ForeachNonChangeRef
presents them serially, in sorted order). -/
def collectRefs (refs : List (String × String)) : RefMaps :=
  refs.foldl (fun m rh => collectRef m rh.1 rh.2) ⟨[], []⟩

/-- The release-assembly loop of supportedGoReleases: a release exists for a
(major, minor) pair exactly when both a tag and a release branch were seen. -/
def releasesOf (m : RefMaps) : List GoRelease :=
  m.tags.filterMap fun kt =>
    match mmLookup m.branches kt.1 with
    | none => none
    | some b => some ⟨kt.1.1, kt.1.2, kt.2.patch, kt.2.name, kt.2.commit, b.name, b.commit⟩

/-- Comparison used to sort releases latest-first: the non-strict closure of
the sort.Slice comparator of supportedGoReleases (descending by major, then
minor, then patch). -/
def releaseBefore (a b : GoRelease) : Bool :=
  if a.major ≠ b.major then decide (b.major < a.major)
  else if a.minor ≠ b.minor then decide (b.minor < a.minor)
  else decide (b.patch ≤ a.patch)

/-- Propositional form of releaseBefore, for List.Sorted. -/
def releaseLE (a b : GoRelease) : Prop := releaseBefore a b = true

instance : DecidableRel releaseLE :=
  fun a b => inferInstanceAs (Decidable (releaseBefore a b = true))

/-- supportedGoReleases (api.go): build the tag and branch maps from the
non-change refs, pair them into releases, sort latest-first, require at
least two releases, and return the top two. -/
def supportedGoReleases (refs : List (String × String)) : Except String (List GoRelease) :=
  let m := collectRefs refs
  let rs := List.insertionSort releaseLE (releasesOf m)
  if rs.length < 2 then
    .error "there was a problem finding supported Go releases"
  else
    .ok (rs.take 2)

/-! ## Ordering facts about releaseLE -/

instance : IsTotal GoRelease releaseLE := ⟨by
  intro a b
  unfold releaseLE releaseBefore
  split_ifs <;> simp only [decide_eq_true_eq] <;> omega⟩

instance : IsTrans GoRelease releaseLE := ⟨by
  intro a b c h1 h2
  unfold releaseLE releaseBefore at h1 h2 ⊢
  split_ifs at h1 h2 ⊢ <;> simp only [decide_eq_true_eq] at * <;> omega⟩

/-- Helper: supportedGoReleases only succeeds with exactly two releases. -/
theorem supportedGoReleases_ok_length {refs : List (String × String)}
    {l : List GoRelease} (h : supportedGoReleases refs = .ok l) : l.length = 2 := by
  simp only [supportedGoReleases] at h
  split at h
  · exact Except.noConfusion h
  · next h2 =>
    injection h with h
    subst h
    rw [List.length_take, List.length_insertionSort]
    rw [List.length_insertionSort] at h2
    omega

/-- Claim C2: supportedGoReleases never returns an empty or singleton list.
Whenever the refs yield fewer than two complete (tag plus branch) releases
it fails with an error, and on success it returns exactly the top two
releases: a two-element list, sorted latest-first, such that every other
complete release is dominated by both returned entries. -/
theorem c2_supportedGoReleases_top2 (refs : List (String × String)) :
    (∀ l, supportedGoReleases refs = .ok l →
      l.length = 2 ∧ List.Sorted releaseLE l ∧
      ∀ r ∈ releasesOf (collectRefs refs), r ∈ l ∨ ∀ x ∈ l, releaseLE x r) ∧
    ((releasesOf (collectRefs refs)).length < 2 ↔
      ∃ e, supportedGoReleases refs = .error e) := by
  have hperm := List.perm_insertionSort releaseLE (releasesOf (collectRefs refs))
  have hsorted := List.sorted_insertionSort releaseLE (releasesOf (collectRefs refs))
  constructor
  · intro l hl
    have hlen2 := supportedGoReleases_ok_length hl
    simp only [supportedGoReleases] at hl
    split at hl
    · exact Except.noConfusion hl
    · next h2 =>
      injection hl with hl
      subst hl
      refine ⟨hlen2, ?_, ?_⟩
      · exact List.Pairwise.sublist (List.take_sublist 2 _) hsorted
      · intro r hr
        have hmem : r ∈ List.insertionSort releaseLE (releasesOf (collectRefs refs)) :=
          hperm.mem_iff.mpr hr
        conv at hmem =>
          rw [← List.take_append_drop 2
            (List.insertionSort releaseLE (releasesOf (collectRefs refs)))]
        rcases List.mem_append.mp hmem with h | h
        · exact Or.inl h
        · right
          intro x hx
          have hp := hsorted
          rw [← List.take_append_drop 2
            (List.insertionSort releaseLE (releasesOf (collectRefs refs)))] at hp
          rw [List.Sorted, List.pairwise_append] at hp
          exact hp.2.2 x hx r h
  · constructor
    · intro hlt
      refine ⟨"there was a problem finding supported Go releases", ?_⟩
      simp only [supportedGoReleases]
      rw [if_pos]
      rw [List.length_insertionSort]
      exact hlt
    · rintro ⟨e, he⟩
      simp only [supportedGoReleases] at he
      split at he
      · next h2 => rw [List.length_insertionSort] at h2; exact h2
      · exact Except.noConfusion he

/-- Concrete fixture of section 8 of the spec, as sorted non-change refs. -/
def refsFixture : List (String × String) :=
  [("refs/heads/release-branch.go1.11", "bc11"),
   ("refs/heads/release-branch.go1.12", "bc12"),
   ("refs/tags/go1.11", "tc11"),
   ("refs/tags/go1.12", "tc12"),
   ("refs/tags/go1.12.1", "tc121")]

/-- Fixture of section 8 with an extra tag go1.13 that has no release branch. -/
def refsFixtureWith13 : List (String × String) :=
  refsFixture ++ [("refs/tags/go1.13", "tc13")]

/-- Fixture with only one complete tag-plus-branch pair. -/
def refsFixtureSingle : List (String × String) :=
  [("refs/heads/release-branch.go1.11", "bc11"), ("refs/tags/go1.11", "tc11")]

/-- Release 1.12 patch 1 as resolved from the fixture. -/
def rel12 : GoRelease :=
  ⟨1, 12, 1, "go1.12.1", "tc121", "release-branch.go1.12", "bc12"⟩

/-- Release 1.11 patch 0 as resolved from the fixture. -/
def rel11 : GoRelease :=
  ⟨1, 11, 0, "go1.11", "tc11", "release-branch.go1.11", "bc11"⟩

theorem c2_witness :
    ([rel12, rel11].length = 2 ∧ List.Sorted releaseLE [rel12, rel11] ∧
      ∀ r ∈ releasesOf (collectRefs refsFixture),
        r ∈ [rel12, rel11] ∨ ∀ x ∈ [rel12, rel11], releaseLE x r) ∧
    ((releasesOf (collectRefs refsFixtureSingle)).length < 2 ↔
      ∃ e, supportedGoReleases refsFixtureSingle = .error e) :=
  ⟨(c2_supportedGoReleases_top2 refsFixture).1 [rel12, rel11] rfl,
   (c2_supportedGoReleases_top2 refsFixtureSingle).2⟩

/-- Claim C3: supportedGoReleases on the fixture of section 8: the tags
go1.11, go1.12, go1.12.1 with branches release-branch.go1.11 and
release-branch.go1.12 yield exactly the releases 1.12.1 then 1.11 in
descending order; a tag go1.13 without a matching branch changes nothing;
a single complete tag-plus-branch pair is an error. -/
theorem c3_supportedGoReleases_fixture :
    supportedGoReleases refsFixture = .ok [rel12, rel11] ∧
    supportedGoReleases refsFixtureWith13 = .ok [rel12, rel11] ∧
    supportedGoReleases refsFixtureSingle =
      .error "there was a problem finding supported Go releases" :=
  ⟨rfl, rfl, rfl⟩

/-! ## HasAncestor (api.go lines 37-59) -/

/-- Request of the HasAncestor RPC. -/
structure HasAncestorRequest where
  commit : String
  ancestor : String
deriving DecidableEq

/-- Response of the HasAncestor RPC; both fields default to false as in the
Go zero value of the response message. -/
structure HasAncestorResponse where
  hasAncestor : Bool := false
  unknownCommit : Bool := false
deriving DecidableEq

/-- apiService.HasAncestor: validate that both arguments have length 40,
then look the commits up. The corpus commit table and the git ancestor
test are collaborators (CorpusReader), abstracted as the parameters
gitCommit and hasAnc over an arbitrary commit type. -/
def hasAncestor {Γ : Type} (gitCommit : String → Option Γ) (hasAnc : Γ → Γ → Bool)
    (req : HasAncestorRequest) : Except String HasAncestorResponse :=
  if req.commit.data.length ≠ 40 then .error "invalid Commit"
  else if req.ancestor.data.length ≠ 40 then .error "invalid Ancestor"
  else
    match gitCommit req.commit with
    | none => .ok { unknownCommit := true }
    | some c =>
      match gitCommit req.ancestor with
      | none => .ok {}
      | some a => .ok { hasAncestor := hasAnc c a }

/-- Hexadecimal characters; states what the spec demands of commit hashes
(the code itself never checks this). -/
def isHexChar (c : Char) : Bool :=
  (48 ≤ c.toNat && c.toNat ≤ 57) || (97 ≤ c.toNat && c.toNat ≤ 102) ||
    (65 ≤ c.toNat && c.toNat ≤ 70)

/-- A string of exactly 40 hexadecimal characters. -/
def isHex40 (s : String) : Bool := s.data.length == 40 && s.data.all isHexChar

/-- Forty times the letter z: length 40 but not hexadecimal. -/
def z40 : String := "zzzzzzzzzzzzzzzzzzzzzzzzzzzzzzzzzzzzzzzz"

/-- Forty times the letter a: a well-formed lowercase hex hash. -/
def a40 : String := "aaaaaaaaaaaaaaaaaaaaaaaaaaaaaaaaaaaaaaaa"

/-- Forty times the letter b: a second well-formed hash. -/
def b40 : String := "bbbbbbbbbbbbbbbbbbbbbbbbbbbbbbbbbbbbbbbb"

/-- Counterexample to claim C5 as stated: a 40-character argument that is
not hexadecimal passes validation and the call succeeds, while the claim
demands a validation error for every argument that is not exactly 40
hexadecimal characters. -/
theorem c5_counterexample :
    isHex40 z40 = false ∧ z40.data.length = 40 ∧
    hasAncestor (fun _ => (none : Option Unit)) (fun _ _ => false) ⟨z40, z40⟩ =
      .ok { unknownCommit := true } :=
  ⟨by decide, by decide, rfl⟩

/-- Claim C5 as amended: the call fails with a validation error if and only
if either argument is not exactly 40 characters long (hex digits are not
checked); for every pair of 40-character arguments the call succeeds,
reporting UnknownCommit exactly when the commit is not known and otherwise
whether ancestor is a known git ancestor of the commit. -/
theorem c5_hasAncestor_validation {Γ : Type} (gitCommit : String → Option Γ)
    (hasAnc : Γ → Γ → Bool) (req : HasAncestorRequest) :
    (¬ (req.commit.data.length = 40 ∧ req.ancestor.data.length = 40) →
      ∃ e, hasAncestor gitCommit hasAnc req = .error e) ∧
    (req.commit.data.length = 40 → req.ancestor.data.length = 40 →
      ∃ resp, hasAncestor gitCommit hasAnc req = .ok resp ∧
        (resp.unknownCommit = true ↔ gitCommit req.commit = none) ∧
        (∀ c, gitCommit req.commit = some c →
          resp.hasAncestor = ((gitCommit req.ancestor).map (hasAnc c)).getD false)) := by
  constructor
  · intro hcon
    unfold hasAncestor
    split_ifs with h1 h2
    · exact ⟨"invalid Commit", rfl⟩
    · exact ⟨"invalid Ancestor", rfl⟩
    · exact absurd ⟨by omega, by omega⟩ hcon
  · intro h1 h2
    unfold hasAncestor
    rw [if_neg (not_not_intro h1), if_neg (not_not_intro h2)]
    cases hc : gitCommit req.commit with
    | none =>
      refine ⟨{ unknownCommit := true }, rfl, by simp, ?_⟩
      intro c hcc
      exact Option.noConfusion hcc
    | some c0 =>
      cases ha : gitCommit req.ancestor with
      | none =>
        refine ⟨{}, rfl, by simp, ?_⟩
        intro c hcc
        injection hcc with hcc
        subst hcc
        rfl
      | some a0 =>
        refine ⟨{ hasAncestor := hasAnc c0 a0 }, rfl, by simp, ?_⟩
        intro c hcc
        injection hcc with hcc
        subst hcc
        rfl

theorem c5_witness :
    (∃ e, hasAncestor (fun _ => (none : Option Unit)) (fun _ _ => false)
      ⟨"x", a40⟩ = .error e) ∧
    (∃ resp, hasAncestor (fun _ => (none : Option Unit)) (fun _ _ => false)
        ⟨a40, b40⟩ = .ok resp ∧
      (resp.unknownCommit = true ↔ (fun _ => (none : Option Unit)) a40 = none) ∧
      (∀ c, (fun _ => (none : Option Unit)) a40 = some c →
        resp.hasAncestor =
          (((fun _ => (none : Option Unit)) b40).map ((fun _ _ => false) c)).getD false)) :=
  ⟨(c5_hasAncestor_validation (fun _ => (none : Option Unit)) (fun _ _ => false)
      ⟨"x", a40⟩).1 (by decide),
   (c5_hasAncestor_validation (fun _ => (none : Option Unit)) (fun _ _ => false)
      ⟨a40, b40⟩).2 (by decide) (by decide)⟩

/-- Claim C10: with a 40-character commit that is known and a 40-character
ancestor that is unknown, the call succeeds with HasAncestor false and
UnknownCommit false: UnknownCommit reports only on the commit argument. -/
theorem c10_hasAncestor_unknownAncestor {Γ : Type} (gitCommit : String → Option Γ)
    (hasAnc : Γ → Γ → Bool) (req : HasAncestorRequest) (c : Γ)
    (h1 : req.commit.data.length = 40) (h2 : req.ancestor.data.length = 40)
    (hc : gitCommit req.commit = some c) (ha : gitCommit req.ancestor = none) :
    hasAncestor gitCommit hasAnc req =
      .ok { hasAncestor := false, unknownCommit := false } := by
  unfold hasAncestor
  rw [if_neg (not_not_intro h1), if_neg (not_not_intro h2), hc, ha]

/-- Concrete corpus that knows only the hash a40. -/
def corpusA : String → Option Unit := fun s => if s = a40 then some () else none

theorem c10_witness :
    hasAncestor corpusA (fun _ _ => false) ⟨a40, b40⟩ =
      .ok { hasAncestor := false, unknownCommit := false } :=
  c10_hasAncestor_unknownAncestor corpusA (fun _ _ => false) ⟨a40, b40⟩ ()
    (by decide) (by decide) (by decide) (by decide)

/-! ## GetRef (api.go lines 107-120) -/

/-- Request of the GetRef RPC. -/
structure GetRefRequest where
  gerritServer : String
  gerritProject : String
  ref : String

/-- Response of the GetRef RPC; the value defaults to the empty string as
in the Go zero value. -/
structure GetRefResponse where
  value : String
deriving DecidableEq

/-- apiService.GetRef: fail on an unknown Gerrit project; otherwise resolve
the ref through the project. An empty hash means the ref does not exist
and leaves the response value empty. The corpus project table is the
collaborator, abstracted as the parameter project mapping server and
project name to the ref-resolution function GerritProject.Ref. -/
def getRef (project : String → String → Option (String → String))
    (req : GetRefRequest) : Except String GetRefResponse :=
  match project req.gerritServer req.gerritProject with
  | none => .error "unknown gerrit project"
  | some refOf =>
    let res : GetRefResponse := ⟨""⟩
    let hash := refOf req.ref
    if hash ≠ "" then .ok { res with value := hash } else .ok res

/-- Claim C8: an unknown project is a lookup error; a known project with a
ref that does not resolve succeeds with an empty result; a known project
with an existing ref succeeds with the resolved hash. -/
theorem c8_getRef_discrimination (project : String → String → Option (String → String))
    (req : GetRefRequest) :
    (project req.gerritServer req.gerritProject = none →
      getRef project req = .error "unknown gerrit project") ∧
    (∀ refOf, project req.gerritServer req.gerritProject = some refOf →
      refOf req.ref = "" → getRef project req = .ok ⟨""⟩) ∧
    (∀ refOf, project req.gerritServer req.gerritProject = some refOf →
      refOf req.ref ≠ "" → getRef project req = .ok ⟨refOf req.ref⟩) := by
  refine ⟨?_, ?_, ?_⟩
  · intro h
    unfold getRef
    rw [h]
  · intro refOf h hh
    unfold getRef
    rw [h]
    simp [hh]
  · intro refOf h hh
    unfold getRef
    rw [h]
    simp [hh]

/-- Concrete project table for the C8 witness: one server, one project,
one ref. -/
def projTable : String → String → Option (String → String) :=
  fun server proj =>
    if server = "go.googlesource.com" ∧ proj = "go" then
      some (fun r => if r = "refs/heads/master" then a40 else "")
    else none

theorem c8_witness :
    getRef projTable ⟨"go.googlesource.com", "nope", "refs/heads/master"⟩ =
      .error "unknown gerrit project" ∧
    getRef projTable ⟨"go.googlesource.com", "go", "refs/heads/nope"⟩ = .ok ⟨""⟩ ∧
    getRef projTable ⟨"go.googlesource.com", "go", "refs/heads/master"⟩ = .ok ⟨a40⟩ :=
  ⟨(c8_getRef_discrimination projTable ⟨"go.googlesource.com", "nope", "refs/heads/master"⟩).1
      rfl,
   (c8_getRef_discrimination projTable ⟨"go.googlesource.com", "go", "refs/heads/nope"⟩).2.1
      (fun r => if r = "refs/heads/master" then a40 else "") rfl rfl,
   (c8_getRef_discrimination projTable ⟨"go.googlesource.com", "go", "refs/heads/master"⟩).2.2
      (fun r => if r = "refs/heads/master" then a40 else "") rfl (by decide)⟩

/-! ## GoFindTryWork (api.go lines 122-238) -/

/-- MajorMinor mirrors apipb.MajorMinor. -/
structure MajorMinor where
  major : Nat
  minor : Nat
deriving DecidableEq

/-- GerritTryWorkItem mirrors apipb.GerritTryWorkItem; the three Go arrays
default to empty as in the Go zero value. -/
structure GerritTryWorkItem where
  project : String
  branch : String
  changeId : String
  commit : String
  goCommit : List String := []
  goBranch : List String := []
  goVersion : List MajorMinor := []
deriving DecidableEq

/-- The fields of a maintner GerritCL that GoFindTryWork reads: the project
name, the raw branch ref, the change id, and the head commit hash known to
the corpus. -/
structure GerritCL where
  project : String
  branch : String
  changeId : String
  commitHash : String
deriving DecidableEq

/-- tryWorkItem (api.go lines 98-105): project, branch with the leading
refs/heads/ stripped, change id and corpus head commit. -/
def tryWorkItem (cl : GerritCL) : GerritTryWorkItem :=
  { project := cl.project
    branch := trimLead cl.branch "refs/heads/"
    changeId := cl.changeId
    commit := cl.commitHash }

/-- The fields of a gerrit.ChangeInfo that GoFindTryWork reads. -/
structure ChangeInfo where
  project : String
  changeNumber : Int
  currentRevision : String
deriving DecidableEq

/-- GoFindTryWorkResponse mirrors apipb.GoFindTryWorkResponse. -/
structure GoFindTryWorkResponse where
  waiting : List GerritTryWorkItem
deriving DecidableEq

/-- The process-wide tryCache variable (api.go lines 122-127): the label
change-count snapshot, the time of the last Gerrit poll, and the cached
response. The Go zero value is (0, 0, none). -/
structure TryCache where
  forNumChanges : Int
  lastPoll : Int
  val : Option GoFindTryWorkResponse
deriving DecidableEq

/-- The per-project corpus data read by the sumChanges loop. -/
structure GerritProjInfo where
  server : String
  numLabelChanges : Int

/-- The environment of one GoFindTryWork call: the read-locked corpus view
(projects, CL lookup, refs of the go project), the current time, and the
outcome the remote Gerrit query would have (a timeout or transport error,
or the list of matching open changes). -/
structure TryWorkEnv where
  projects : List GerritProjInfo
  clLookup : String → Int → Option GerritCL
  goRefs : List (String × String)
  goRef : String → String
  now : Int
  queryResult : Except String (List ChangeInfo)

/-- Result of one GoFindTryWork call: the response or error, the new state
of the process-wide cache, and whether the remote Gerrit query was issued. -/
structure PollOutcome where
  result : Except String GoFindTryWorkResponse
  cache : TryCache
  queried : Bool

/-- Sum of NumLabelChanges over the corpus projects on go.googlesource.com
(api.go lines 141-148). -/
def sumLabelChanges (projects : List GerritProjInfo) : Int :=
  projects.foldl
    (fun acc gp => if gp.server = "go.googlesource.com" then acc + gp.numLabelChanges else acc) 0

/-- maxPollInterval (api.go line 151): 15 seconds in nanoseconds. -/
def maxPollInterval : Int := 15 * 1000000000

/-- The cache-hit test of GoFindTryWork (api.go lines 153-157): a cached
value exists and either the label-change count is unchanged or the last
poll is more recent than now minus maxPollInterval. -/
def cacheHit (cache : TryCache) (sumChanges now : Int) : Option GoFindTryWorkResponse :=
  match cache.val with
  | none => none
  | some v =>
    if cache.forNumChanges = sumChanges ∨ now - maxPollInterval < cache.lastPoll then some v
    else none

/-- The GoVersion computation for changes on the root go repository
(api.go lines 190-205), keyed on the already-trimmed branch name. -/
def goVersionForBranch (branch : String) (latest : GoRelease) : List MajorMinor :=
  if branch = "master" then
    -- Master maps to the latest supported release.
    [⟨latest.major, latest.minor⟩]
  else
    match parseReleaseBranchVersion branch with
    | some (x, y) =>
      -- A release branch like release-branch.goX.Y uses its own version.
      [⟨x, y⟩]
    | none =>
      -- Neither master nor release-branch.goX.Y: fall back to the latest release.
      [⟨latest.major, latest.minor⟩]

/-- Per-change work-item construction (api.go lines 185-217), given the
resolved master ref hash of the go project, the supported releases and
their head (the latest release). -/
def workItemForCL (goMasterHash : String) (supported : List GoRelease) (latest : GoRelease)
    (ci : ChangeInfo) (cl : GerritCL) : GerritTryWorkItem :=
  let w := tryWorkItem cl
  let w := if ci.currentRevision ≠ "" then { w with commit := ci.currentRevision } else w
  if w.project = "go" then
    { w with goVersion := goVersionForBranch w.branch latest }
  else
    { w with
      goCommit := goMasterHash :: supported.map (fun r => r.branchCommit)
      goBranch := "master" :: supported.map (fun r => r.branchName)
      goVersion := ⟨latest.major, latest.minor⟩ ::
        supported.map (fun r => MajorMinor.mk r.major r.minor) }

/-- Sort order of the final work list: ascending by commit identifier
(non-strict closure of the sort.Slice comparator at api.go lines 229-231). -/
def itemLE (a b : GerritTryWorkItem) : Prop := strLe a.commit b.commit = true

instance : DecidableRel itemLE :=
  fun a b => inferInstanceAs (Decidable (strLe a.commit b.commit = true))

/-- The work items built from the queried changes, before sorting: changes
whose CL is not found in the corpus are skipped (api.go lines 179-219). -/
def builtItems (goMasterHash : String) (clLookup : String → Int → Option GerritCL)
    (supported : List GoRelease) (latest : GoRelease) (cis : List ChangeInfo) :
    List GerritTryWorkItem :=
  cis.filterMap fun ci =>
    (clLookup ci.project ci.changeNumber).map (workItemForCL goMasterHash supported latest ci)

/-- Item assembly followed by the final sort by commit identifier. -/
def assembleWaiting (goMasterHash : String) (clLookup : String → Int → Option GerritCL)
    (supported : List GoRelease) (latest : GoRelease) (cis : List ChangeInfo) :
    List GerritTryWorkItem :=
  List.insertionSort itemLE (builtItems goMasterHash clLookup supported latest cis)

/-- The poll path of GoFindTryWork (api.go lines 159-237): record the poll
time, run the remote query, record the change-count snapshot, resolve the
supported releases, assemble and sort the work list, and store it. -/
def goPoll (env : TryWorkEnv) (cache : TryCache) (sumChanges : Int) : PollOutcome :=
  let cacheA : TryCache := { cache with lastPoll := env.now }
  match env.queryResult with
  | .error e => ⟨.error e, cacheA, true⟩
  | .ok cis =>
    let cacheB : TryCache := { cacheA with forNumChanges := sumChanges }
    match supportedGoReleases env.goRefs with
    | .error e => ⟨.error e, cacheB, true⟩
    | .ok supported =>
      match supported with
      | [] =>
        -- Unreachable: supportedGoReleases only succeeds with two releases.
        -- The Go code indexes supportedReleases[0] without a check here.
        ⟨.error "no supported releases", cacheB, true⟩
      | latest :: _ =>
        let res : GoFindTryWorkResponse :=
          ⟨assembleWaiting (env.goRef "refs/heads/master") env.clLookup supported latest cis⟩
        ⟨.ok res, { cacheB with val := some res }, true⟩

/-- GoFindTryWork (api.go lines 131-238): compute the label-change count,
return the cached response on a cache hit without touching Gerrit, and
otherwise poll. -/
def goFindTryWork (env : TryWorkEnv) (cache : TryCache) : PollOutcome :=
  match cacheHit cache (sumLabelChanges env.projects) env.now with
  | some v => ⟨.ok v, cache, false⟩
  | none => goPoll env cache (sumLabelChanges env.projects)

/-- Environment in which the remote Gerrit query fails. -/
def envFail : TryWorkEnv :=
  { projects := []
    clLookup := fun _ _ => none
    goRefs := []
    goRef := fun _ => ""
    now := 100
    queryResult := .error "gerrit query failed" }

/-- Counterexample to claim C1 as stated: on a failed poll the error is
propagated, but the cache entry is not left exactly as it was — the
last-poll time is overwritten with the poll start time before the remote
query runs (api.go line 159). -/
theorem c1_counterexample :
    (goFindTryWork envFail ⟨0, 0, none⟩).result = .error "gerrit query failed" ∧
    (goFindTryWork envFail ⟨0, 0, none⟩).cache ≠ (⟨0, 0, none⟩ : TryCache) ∧
    (goFindTryWork envFail ⟨0, 0, none⟩).cache.lastPoll = 100 :=
  ⟨rfl, by decide, rfl⟩

/-- Helper: what goPoll does to the cache when it fails. -/
theorem goPoll_error_cache (env : TryWorkEnv) (cache : TryCache) (sum : Int) (e : String)
    (h : (goPoll env cache sum).result = .error e) :
    (goPoll env cache sum).cache.val = cache.val ∧
    (goPoll env cache sum).cache.lastPoll = env.now ∧
    (((goPoll env cache sum).cache.forNumChanges = cache.forNumChanges ∧
        env.queryResult = .error e) ∨
      ((goPoll env cache sum).cache.forNumChanges = sum ∧
        supportedGoReleases env.goRefs = .error e)) := by
  unfold goPoll at h ⊢
  cases hq : env.queryResult with
  | error e2 =>
    rw [hq] at h
    exact ⟨rfl, rfl, Or.inl ⟨rfl, congrArg Except.error (Except.error.inj h)⟩⟩
  | ok cis =>
    rw [hq] at h
    cases hs : supportedGoReleases env.goRefs with
    | error e3 =>
      rw [hs] at h
      exact ⟨rfl, rfl, Or.inr ⟨rfl, congrArg Except.error (Except.error.inj h)⟩⟩
    | ok supported =>
      rw [hs] at h
      cases supported with
      | nil => simpa using supportedGoReleases_ok_length hs
      | cons latest rest => exact Except.noConfusion h

/-- Claim C1 as amended: on a failed poll the error is propagated and the
cached result (val) is never modified, but lastPoll has been set to the
poll start time, and the change-count snapshot either is unchanged (the
remote query failed) or has been updated (release resolution failed after
a successful query). -/
theorem c1_failedPollAtomicity (env : TryWorkEnv) (cache : TryCache) (e : String)
    (h : (goFindTryWork env cache).result = .error e) :
    (goFindTryWork env cache).cache.val = cache.val ∧
    (goFindTryWork env cache).cache.lastPoll = env.now ∧
    (((goFindTryWork env cache).cache.forNumChanges = cache.forNumChanges ∧
        env.queryResult = .error e) ∨
      ((goFindTryWork env cache).cache.forNumChanges = sumLabelChanges env.projects ∧
        supportedGoReleases env.goRefs = .error e)) := by
  unfold goFindTryWork at h ⊢
  cases hhit : cacheHit cache (sumLabelChanges env.projects) env.now with
  | some v =>
    rw [hhit] at h
    exact Except.noConfusion h
  | none =>
    rw [hhit] at h
    exact goPoll_error_cache env cache (sumLabelChanges env.projects) e h

theorem c1_witness :
    (goFindTryWork envFail ⟨0, 0, none⟩).cache.val = (⟨0, 0, none⟩ : TryCache).val ∧
    (goFindTryWork envFail ⟨0, 0, none⟩).cache.lastPoll = envFail.now ∧
    (((goFindTryWork envFail ⟨0, 0, none⟩).cache.forNumChanges =
          (⟨0, 0, none⟩ : TryCache).forNumChanges ∧
        envFail.queryResult = .error "gerrit query failed") ∨
      ((goFindTryWork envFail ⟨0, 0, none⟩).cache.forNumChanges =
          sumLabelChanges envFail.projects ∧
        supportedGoReleases envFail.goRefs = .error "gerrit query failed")) :=
  c1_failedPollAtomicity envFail ⟨0, 0, none⟩ "gerrit query failed" rfl

/-- Claim C4: when a cached result exists and either the label-change count
equals the stored snapshot or less than 15 seconds have elapsed since the
last poll, GoFindTryWork returns the cached result, leaves the cache
unchanged, and issues no remote query. -/
theorem c4_cacheHitReturnsCached (env : TryWorkEnv) (cache : TryCache)
    (v : GoFindTryWorkResponse) (hv : cache.val = some v)
    (hcond : cache.forNumChanges = sumLabelChanges env.projects ∨
      env.now - cache.lastPoll < maxPollInterval) :
    goFindTryWork env cache = ⟨.ok v, cache, false⟩ := by
  have hcond2 : cache.forNumChanges = sumLabelChanges env.projects ∨
      env.now - maxPollInterval < cache.lastPoll := by
    rcases hcond with hcond | hcond
    · exact Or.inl hcond
    · right
      omega
  have hhit : cacheHit cache (sumLabelChanges env.projects) env.now = some v := by
    unfold cacheHit
    rw [hv]
    exact if_pos hcond2
  unfold goFindTryWork
  rw [hhit]

/-- Environment whose label-change count is 7 and whose remote query would
fail if it were ever issued. -/
def envIdle : TryWorkEnv :=
  { projects := [⟨"go.googlesource.com", 7⟩]
    clLookup := fun _ _ => none
    goRefs := []
    goRef := fun _ => ""
    now := 1000000000
    queryResult := .error "remote query must not run" }

theorem c4_witness :
    goFindTryWork envIdle ⟨7, 0, some ⟨[]⟩⟩ = ⟨.ok ⟨[]⟩, ⟨7, 0, some ⟨[]⟩⟩, false⟩ :=
  c4_cacheHitReturnsCached envIdle ⟨7, 0, some ⟨[]⟩⟩ ⟨[]⟩ rfl (Or.inl (by decide))

/-- Helper: the work item keeps the project of the CL. -/
theorem workItemForCL_project (gm : String) (s : List GoRelease) (l : GoRelease)
    (ci : ChangeInfo) (cl : GerritCL) :
    (workItemForCL gm s l ci cl).project = cl.project := by
  simp only [workItemForCL, tryWorkItem]
  split_ifs <;> rfl

/-- Helper: the work item carries the trimmed branch of the CL. -/
theorem workItemForCL_branch (gm : String) (s : List GoRelease) (l : GoRelease)
    (ci : ChangeInfo) (cl : GerritCL) :
    (workItemForCL gm s l ci cl).branch = trimLead cl.branch "refs/heads/" := by
  simp only [workItemForCL, tryWorkItem]
  split_ifs <;> rfl

/-- Helper: for a root-repository CL the GoVersion list is computed from
the trimmed branch. -/
theorem workItemForCL_goVersion_root (gm : String) (s : List GoRelease) (l : GoRelease)
    (ci : ChangeInfo) (cl : GerritCL) (hgo : cl.project = "go") :
    (workItemForCL gm s l ci cl).goVersion =
      goVersionForBranch (trimLead cl.branch "refs/heads/") l := by
  simp only [workItemForCL, tryWorkItem]
  split_ifs <;> rfl

/-- Claim C6: for every work item on the root repository go, GoVersion is a
single element determined by the branch: master maps to the latest
supported release, a branch parsing as release-branch.goX.Y maps to (X, Y),
and any other branch falls back to the latest supported release. -/
theorem c6_goVersionFanOut (gm : String) (s : List GoRelease) (l : GoRelease)
    (ci : ChangeInfo) (cl : GerritCL)
    (hproj : (workItemForCL gm s l ci cl).project = "go") :
    ((workItemForCL gm s l ci cl).branch = "master" →
      (workItemForCL gm s l ci cl).goVersion = [⟨l.major, l.minor⟩]) ∧
    (∀ x y, (workItemForCL gm s l ci cl).branch ≠ "master" →
      parseReleaseBranchVersion (workItemForCL gm s l ci cl).branch = some (x, y) →
      (workItemForCL gm s l ci cl).goVersion = [⟨x, y⟩]) ∧
    ((workItemForCL gm s l ci cl).branch ≠ "master" →
      parseReleaseBranchVersion (workItemForCL gm s l ci cl).branch = none →
      (workItemForCL gm s l ci cl).goVersion = [⟨l.major, l.minor⟩]) := by
  have hgo : cl.project = "go" := by
    rw [workItemForCL_project] at hproj
    exact hproj
  have hbr := workItemForCL_branch gm s l ci cl
  have hv := workItemForCL_goVersion_root gm s l ci cl hgo
  rw [hbr, hv]
  unfold goVersionForBranch
  refine ⟨?_, ?_, ?_⟩
  · intro hm
    rw [if_pos hm]
  · intro x y hm hp
    rw [if_neg hm, hp]
  · intro hm hp
    rw [if_neg hm, hp]

/-- Concrete CL on the go repository at master, for the C6 witness. -/
def clMaster : GerritCL := ⟨"go", "refs/heads/master", "I123", a40⟩

/-- Concrete change metadata for the C6 witness. -/
def ciMaster : ChangeInfo := ⟨"go", 1, ""⟩

theorem c6_witness :
    ((workItemForCL "m" [rel12, rel11] rel12 ciMaster clMaster).branch = "master" →
      (workItemForCL "m" [rel12, rel11] rel12 ciMaster clMaster).goVersion =
        [⟨rel12.major, rel12.minor⟩]) ∧
    (∀ x y, (workItemForCL "m" [rel12, rel11] rel12 ciMaster clMaster).branch ≠ "master" →
      parseReleaseBranchVersion
          (workItemForCL "m" [rel12, rel11] rel12 ciMaster clMaster).branch = some (x, y) →
      (workItemForCL "m" [rel12, rel11] rel12 ciMaster clMaster).goVersion = [⟨x, y⟩]) ∧
    ((workItemForCL "m" [rel12, rel11] rel12 ciMaster clMaster).branch ≠ "master" →
      parseReleaseBranchVersion
          (workItemForCL "m" [rel12, rel11] rel12 ciMaster clMaster).branch = none →
      (workItemForCL "m" [rel12, rel11] rel12 ciMaster clMaster).goVersion =
        [⟨rel12.major, rel12.minor⟩]) :=
  c6_goVersionFanOut "m" [rel12, rel11] rel12 ciMaster clMaster rfl

/-! ## Ordering facts about the commit sort -/

theorem charLe_total : ∀ a b : List Char, charLe a b = true ∨ charLe b a = true := by
  intro a
  induction a with
  | nil => intro b; exact Or.inl rfl
  | cons x xs ih =>
    intro b
    cases b with
    | nil => exact Or.inr rfl
    | cons y ys =>
      simp only [charLe]
      by_cases h1 : x.toNat < y.toNat
      · left
        rw [if_pos h1]
      · by_cases h2 : y.toNat < x.toNat
        · right
          rw [if_pos h2]
        · rw [if_neg h1, if_neg h2, if_neg h2, if_neg h1]
          exact ih ys

theorem charLe_trans :
    ∀ a b c : List Char, charLe a b = true → charLe b c = true → charLe a c = true := by
  intro a
  induction a with
  | nil => intro b c _ _; rfl
  | cons x xs ih =>
    intro b c hab hbc
    cases b with
    | nil => simp [charLe] at hab
    | cons y ys =>
      cases c with
      | nil => simp [charLe] at hbc
      | cons z zs =>
        simp only [charLe] at hab hbc ⊢
        by_cases h1 : x.toNat < y.toNat
        · by_cases h2 : y.toNat < z.toNat
          · rw [if_pos (show x.toNat < z.toNat by omega)]
          · by_cases h3 : z.toNat < y.toNat
            · rw [if_neg h2, if_pos h3] at hbc
              exact absurd hbc (by simp)
            · rw [if_pos (show x.toNat < z.toNat by omega)]
        · by_cases h1b : y.toNat < x.toNat
          · rw [if_neg h1, if_pos h1b] at hab
            exact absurd hab (by simp)
          · rw [if_neg h1, if_neg h1b] at hab
            by_cases h2 : y.toNat < z.toNat
            · rw [if_pos (show x.toNat < z.toNat by omega)]
            · by_cases h3 : z.toNat < y.toNat
              · rw [if_neg h2, if_pos h3] at hbc
                exact absurd hbc (by simp)
              · rw [if_neg h2, if_neg h3] at hbc
                rw [if_neg (show ¬ x.toNat < z.toNat by omega),
                  if_neg (show ¬ z.toNat < x.toNat by omega)]
                exact ih ys zs hab hbc

theorem charLe_antisymm :
    ∀ a b : List Char, charLe a b = true → charLe b a = true → a = b := by
  intro a
  induction a with
  | nil =>
    intro b hab hba
    cases b with
    | nil => rfl
    | cons y ys => simp [charLe] at hba
  | cons x xs ih =>
    intro b hab hba
    cases b with
    | nil => simp [charLe] at hab
    | cons y ys =>
      simp only [charLe] at hab hba
      by_cases h1 : x.toNat < y.toNat
      · rw [if_neg (show ¬ y.toNat < x.toNat by omega), if_pos h1] at hba
        exact absurd hba (by simp)
      · by_cases h2 : y.toNat < x.toNat
        · rw [if_neg h1, if_pos h2] at hab
          exact absurd hab (by simp)
        · rw [if_neg h1, if_neg h2] at hab
          rw [if_neg h2, if_neg h1] at hba
          have hn : x.toNat = y.toNat := by omega
          have hxy : x = y := Char.eq_of_val_eq (UInt32.ext hn)
          rw [hxy, ih ys hab hba]

instance : IsTotal GerritTryWorkItem itemLE :=
  ⟨fun a b => charLe_total a.commit.data b.commit.data⟩

instance : IsTrans GerritTryWorkItem itemLE :=
  ⟨fun _ _ _ hab hbc => charLe_trans _ _ _ hab hbc⟩

/-- Strict version of itemLE used to show the sorted output is unique when
all commit identifiers are distinct. -/
def itemLT (a b : GerritTryWorkItem) : Prop := a.commit ≠ b.commit ∧ itemLE a b

instance : IsAntisymm GerritTryWorkItem itemLT := ⟨by
  intro a b hab hba
  have hd : a.commit.data = b.commit.data := charLe_antisymm _ _ hab.2 hba.2
  exact absurd (congrArg String.mk hd) hab.1⟩

/-- Helper: a cache hit returns exactly the stored value. -/
theorem cacheHit_val {cache : TryCache} {sum now : Int} {v : GoFindTryWorkResponse}
    (h : cacheHit cache sum now = some v) : cache.val = some v := by
  unfold cacheHit at h
  cases hv : cache.val with
  | none =>
    rw [hv] at h
    exact Option.noConfusion h
  | some w =>
    rw [hv] at h
    split_ifs at h with hc
    rw [Option.some.inj h]

/-- Helper: a sorted list whose commit identifiers are all distinct is
sorted for the strict order as well. -/
theorem sorted_lt_of_nodup {l : List GerritTryWorkItem}
    (hs : List.Sorted itemLE l) (hn : (l.map (fun w => w.commit)).Nodup) :
    List.Sorted itemLT l := by
  have hp : l.Pairwise (fun a b => a.commit ≠ b.commit) := by
    rw [List.Nodup, List.pairwise_map] at hn
    exact hn
  exact List.Pairwise.imp (fun h => h) (hp.and hs)

/-- Helper: the assembled work list is sorted by commit identifier. -/
theorem sorted_assembleWaiting (gm : String) (lookup : String → Int → Option GerritCL)
    (supported : List GoRelease) (latest : GoRelease) (cis : List ChangeInfo) :
    List.Sorted itemLE (assembleWaiting gm lookup supported latest cis) :=
  List.sorted_insertionSort itemLE _

/-- Helper: when the built items have pairwise distinct commit identifiers,
the assembled (sorted) work list does not depend on the order in which the
remote service returned the changes. -/
theorem assembleWaiting_perm_eq (gm : String) (lookup : String → Int → Option GerritCL)
    (supported : List GoRelease) (latest : GoRelease) (cis₁ cis₂ : List ChangeInfo)
    (hperm : cis₁.Perm cis₂)
    (hn : ((builtItems gm lookup supported latest cis₁).map (fun w => w.commit)).Nodup) :
    assembleWaiting gm lookup supported latest cis₁ =
      assembleWaiting gm lookup supported latest cis₂ := by
  have hpi : (builtItems gm lookup supported latest cis₁).Perm
      (builtItems gm lookup supported latest cis₂) := hperm.filterMap _
  have hs₁ := sorted_assembleWaiting gm lookup supported latest cis₁
  have hs₂ := sorted_assembleWaiting gm lookup supported latest cis₂
  have hps : (assembleWaiting gm lookup supported latest cis₁).Perm
      (assembleWaiting gm lookup supported latest cis₂) :=
    (List.perm_insertionSort itemLE _).trans
      (hpi.trans (List.perm_insertionSort itemLE _).symm)
  have hn₁ : ((assembleWaiting gm lookup supported latest cis₁).map
      (fun w => w.commit)).Nodup :=
    (((List.perm_insertionSort itemLE _).map (fun w => w.commit)).symm).nodup hn
  have hn₂ : ((assembleWaiting gm lookup supported latest cis₂).map
      (fun w => w.commit)).Nodup :=
    ((hps.map (fun w => w.commit))).nodup hn₁
  exact List.eq_of_perm_of_sorted hps
    (sorted_lt_of_nodup hs₁ hn₁) (sorted_lt_of_nodup hs₂ hn₂)

/-- Helper: the poll path only produces sorted work lists and only stores
sorted work lists into the cache. -/
theorem goPoll_sorted (env : TryWorkEnv) (cache : TryCache) (sum : Int)
    (hc : ∀ v, cache.val = some v → List.Sorted itemLE v.waiting) :
    (∀ res, (goPoll env cache sum).result = .ok res → List.Sorted itemLE res.waiting) ∧
    (∀ v, (goPoll env cache sum).cache.val = some v → List.Sorted itemLE v.waiting) := by
  unfold goPoll
  cases hq : env.queryResult with
  | error e =>
    constructor
    · intro res hres
      exact Except.noConfusion hres
    · intro v hv
      exact hc v hv
  | ok cis =>
    cases hs : supportedGoReleases env.goRefs with
    | error e =>
      constructor
      · intro res hres
        exact Except.noConfusion hres
      · intro v hv
        exact hc v hv
    | ok supported =>
      cases supported with
      | nil =>
        constructor
        · intro res hres
          exact Except.noConfusion hres
        · intro v hv
          exact hc v hv
      | cons latest rest =>
        constructor
        · intro res hres
          rw [← Except.ok.inj hres]
          exact sorted_assembleWaiting _ _ _ _ _
        · intro v hv
          rw [← Option.some.inj hv]
          exact sorted_assembleWaiting _ _ _ _ _

/-- Claim C7: the work list assembled by GoFindTryWork is sorted ascending
by commit identifier — the cache invariantly holds only sorted lists, so
both fresh polls and cache hits return sorted lists — and, when the built
items have pairwise distinct commit identifiers, the sorted output is
independent of the order in which the remote service returned the changes. -/
theorem c7_waitingSortedDeterministic :
    (∀ env cache, (∀ v, cache.val = some v → List.Sorted itemLE v.waiting) →
      (∀ res, (goFindTryWork env cache).result = .ok res →
        List.Sorted itemLE res.waiting) ∧
      (∀ v, (goFindTryWork env cache).cache.val = some v →
        List.Sorted itemLE v.waiting)) ∧
    (∀ gm lookup supported latest cis₁ cis₂, List.Perm cis₁ cis₂ →
      ((builtItems gm lookup supported latest cis₁).map (fun w => w.commit)).Nodup →
      assembleWaiting gm lookup supported latest cis₁ =
        assembleWaiting gm lookup supported latest cis₂) := by
  constructor
  · intro env cache hc
    unfold goFindTryWork
    cases hhit : cacheHit cache (sumLabelChanges env.projects) env.now with
    | some v =>
      refine ⟨?_, ?_⟩
      · intro res hres
        rw [← Except.ok.inj hres]
        exact hc v (cacheHit_val hhit)
      · intro w hw
        exact hc w hw
    | none => exact goPoll_sorted env cache (sumLabelChanges env.projects) hc
  · intro gm lookup supported latest cis₁ cis₂ hperm hn
    exact assembleWaiting_perm_eq gm lookup supported latest cis₁ cis₂ hperm hn

/-- Change on the go repository with head commit a40. -/
def ciA : ChangeInfo := ⟨"go", 1, a40⟩

/-- Change on the net repository with head commit b40. -/
def ciB : ChangeInfo := ⟨"net", 2, b40⟩

/-- Concrete corpus CL table for the C7 witness. -/
def clTable : String → Int → Option GerritCL := fun p n =>
  if p = "go" ∧ n = 1 then some ⟨"go", "refs/heads/master", "I1", a40⟩
  else if p = "net" ∧ n = 2 then some ⟨"net", "refs/heads/master", "I2", b40⟩
  else none

/-- Environment for a successful fresh poll returning two changes. -/
def envPoll : TryWorkEnv :=
  { projects := []
    clLookup := clTable
    goRefs := refsFixture
    goRef := fun _ => "mhash"
    now := 0
    queryResult := .ok [ciA, ciB] }

theorem c7_witness :
    ((∀ res, (goFindTryWork envPoll ⟨0, 0, none⟩).result = .ok res →
        List.Sorted itemLE res.waiting) ∧
      (∀ v, (goFindTryWork envPoll ⟨0, 0, none⟩).cache.val = some v →
        List.Sorted itemLE v.waiting)) ∧
    assembleWaiting "m" clTable [rel12, rel11] rel12 [ciA, ciB] =
      assembleWaiting "m" clTable [rel12, rel11] rel12 [ciB, ciA] :=
  ⟨c7_waitingSortedDeterministic.1 envPoll ⟨0, 0, none⟩ (fun _ hv => Option.noConfusion hv),
   c7_waitingSortedDeterministic.2 "m" clTable [rel12, rel11] rel12 [ciA, ciB] [ciB, ciA]
     (List.Perm.swap ciB ciA []) (by decide)⟩

/-! ## Builder eligibility engine (dashboard) -/

/-- Canonicalization of branch aliases: the goN.M and N.M shorthand forms
expand to the canonical release-branch.goN.M form before any comparison
(spec section 3; mirrored by the expandBranch helper in builders_test.go). -/
def canonicalBranch (s : String) : String :=
  if strHasLead s "go1." then "release-branch." ++ s
  else if strHasLead s "1." then "release-branch.go" ++ s
  else s

/-- Modelled from the spec: the builder eligibility engine of section 4.2
(dashboard/builders.go is not under src/, only its tests are). A profile
carries its declarative constraint set — the OS/architecture support
window and per-repository allow/deny rules of items (i) and (ii) — as the
rules predicate evaluated on canonicalized inputs, the per-repository
minimum companion-language version of item (iv), and an optional trybot
predicate: a builder with no trybot predicate never runs pre-submit work. -/
structure BuilderProfile where
  name : String
  rules : String → String → String → Bool
  minCompanion : String → Option (Nat × Nat)
  tryRestrict : Option (String → String → String → Bool)

/-- Whether the companion-language branch satisfies a minimum (major,
minor) version: master counts as tip and always qualifies; a release
branch qualifies when its parsed version is at least the minimum; other
development branches are treated like tip. -/
def goBranchAtLeast (goBranch : String) (v : Nat × Nat) : Bool :=
  if goBranch = "master" then true
  else
    match parseReleaseBranchVersion goBranch with
    | some (x, y) => decide (v.1 < x) || (decide (v.1 = x) && decide (v.2 ≤ y))
    | none => true

/-- buildsRepoAtAll: the base eligibility decision on canonical inputs —
the declarative rule set and the minimum companion version must both
accept the combination. -/
def buildsRepoAtAll (b : BuilderProfile) (repo branch goBranch : String) : Bool :=
  b.rules repo (canonicalBranch branch) (canonicalBranch goBranch) &&
    (match b.minCompanion repo with
     | none => true
     | some v => goBranchAtLeast (canonicalBranch goBranch) v)

/-- BuildsRepoPostSubmit: post-submit eligibility is the base decision. -/
def buildsRepoPostSubmit (b : BuilderProfile) (repo branch goBranch : String) : Bool :=
  buildsRepoAtAll b repo branch goBranch

/-- BuildsRepoTryBot: trybot eligibility requires a declared trybot
predicate that accepts the combination, and the base decision. -/
def buildsRepoTryBot (b : BuilderProfile) (repo branch goBranch : String) : Bool :=
  (match b.tryRestrict with
   | none => false
   | some p => p repo branch goBranch) && buildsRepoAtAll b repo branch goBranch

/-- Claim C9: trybot eligibility is always a subset of post-submit
eligibility: for every builder profile and every (repo, branch, goBranch)
triple, BuildsRepoTryBot implies BuildsRepoPostSubmit; a combination may be
post-submit-only but never trybot-only. -/
theorem c9_trybotSubsetPostSubmit (b : BuilderProfile) (repo branch goBranch : String)
    (h : buildsRepoTryBot b repo branch goBranch = true) :
    buildsRepoPostSubmit b repo branch goBranch = true := by
  unfold buildsRepoTryBot at h
  exact ((Bool.and_eq_true _ _).mp h).2

/-- A linux-amd64-like profile: builds every repo at every branch and has
an unrestricted trybot predicate. -/
def linuxAmd64 : BuilderProfile :=
  { name := "linux-amd64"
    rules := fun _ _ _ => true
    minCompanion := fun _ => none
    tryRestrict := some (fun _ _ _ => true) }

theorem c9_witness :
    buildsRepoPostSubmit linuxAmd64 "go" "master" "master" = true :=
  c9_trybotSubsetPostSubmit linuxAmd64 "go" "master" "master" (by decide)
